import Mathlib

/-!
Verification of the OneLake catalog hook (`useOneLakeCatalog`) of the
fabric-extensibility-toolkit: the catalog build pipeline (`loadFiles`), the
preview resource lifecycle (`selectFile`, the unmount cleanup effect) and the
client-side filter (`filteredFiles`), shallowly embedded in Lean.

The hook is written in TypeScript; we first model the JavaScript string
builtins it uses (`startsWith`, `substring`, `split`, `toLowerCase`,
`includes`, `Number`) as executable functions on `String`, operating on the
underlying character list.
-/

/-- Model of the JavaScript `s.length` (character count). -/
def jsLength (s : String) : Nat := s.data.length

/-- Model of the JavaScript `s.startsWith(pre)`. -/
def jsStartsWith (s pre : String) : Bool := s.data.take pre.data.length == pre.data

/-- Model of the JavaScript `s.substring(n)` (suffix from character index `n`). -/
def jsSubstringFrom (s : String) (n : Nat) : String := ⟨s.data.drop n⟩

/-- Helper for `jsSplit`: walks the characters, accumulating the current
segment in reverse; emits a segment at each separator and the trailing
segment at the end.  A split always yields at least one segment. -/
def splitCharAux (sep : Char) : List Char → List Char → List (List Char)
  | [], acc => [acc.reverse]
  | c :: cs, acc =>
    if c == sep then acc.reverse :: splitCharAux sep cs []
    else splitCharAux sep cs (c :: acc)

/-- Model of the JavaScript `s.split(sep)` for a one-character separator. -/
def jsSplit (sep : Char) (s : String) : List String :=
  (splitCharAux sep s.data []).map (fun l => ⟨l⟩)

/-- The text after the last occurrence of `sep` (the whole string when `sep`
does not occur): the final `sep`-separated segment.  `cur` accumulates the
current segment and is reset at each separator. -/
def afterLastSep (sep : Char) : List Char → List Char → List Char
  | [], cur => cur
  | c :: cs, cur =>
    if c == sep then afterLastSep sep cs []
    else afterLastSep sep cs (cur ++ [c])

/-- Model of the JavaScript `s.toLowerCase()` (character-wise lowering; the
inputs here are ASCII file names and extensions). -/
def jsToLower (s : String) : String := ⟨s.data.map Char.toLower⟩

/-- Model of the JavaScript `s.includes(sub)` (substring containment). -/
def jsIncludes (s sub : String) : Bool := decide (sub.data <:+: s.data)

/-- The numeric value of a non-empty all-digit character list, `none`
otherwise. -/
def decimalValue (cs : List Char) : Option Nat :=
  if cs = [] then none
  else if cs.all (fun c => c.isDigit) then
    some (cs.foldl (fun n c => n * 10 + (c.toNat - 48)) 0)
  else none

/-- Model of `Number(x) || 0` applied to an optional decimal string
(`undefined`, the empty string and non-numeric strings all yield 0). -/
def jsNumberToNat (x : Option String) : Nat :=
  match x with
  | none => 0
  | some s => (decimalValue s.data).getD 0

theorem strEta (s : String) : (⟨s.data⟩ : String) = s := by
  cases s
  rfl

theorem jsStartsWith_of_append (s pre : String) (r : List Char)
    (h : s.data = pre.data ++ r) : jsStartsWith s pre = true := by
  simp [jsStartsWith, h, List.take_left]

theorem jsSubstringFrom_append (pre : String) (r : List Char) (s : String)
    (h : s.data = pre.data ++ r) : jsSubstringFrom s (jsLength pre) = ⟨r⟩ := by
  simp [jsSubstringFrom, jsLength, h, List.drop_left]

theorem splitCharAux_ne_nil (sep : Char) (cs acc : List Char) :
    splitCharAux sep cs acc ≠ [] := by
  induction cs generalizing acc with
  | nil => simp [splitCharAux]
  | cons c cs ih =>
    by_cases h : c == sep <;> simp [splitCharAux, h, ih]

theorem getLastD_splitCharAux (sep : Char) (cs : List Char) :
    ∀ (acc d : List Char),
      (splitCharAux sep cs acc).getLastD d = afterLastSep sep cs acc.reverse := by
  induction cs with
  | nil => intro acc d; simp [splitCharAux, afterLastSep]
  | cons c cs ih =>
    intro acc d
    by_cases h : c == sep
    · simp only [splitCharAux, afterLastSep, h, if_true]
      rw [List.getLastD_cons, ih []]
      rfl
    · simp only [splitCharAux, afterLastSep]
      rw [if_neg h, if_neg h, ih (c :: acc)]
      simp

theorem getLastD_map_mk (l : List (List Char)) (d : List Char) :
    (l.map (fun x => (⟨x⟩ : String))).getLastD ⟨d⟩ = ⟨l.getLastD d⟩ := by
  induction l generalizing d with
  | nil => rfl
  | cons x l ih =>
    rw [List.map_cons, List.getLastD_cons, List.getLastD_cons, ih]

/-- The last element of a JavaScript split is the text after the last
separator. -/
theorem jsSplit_getLastD (sep : Char) (s : String) :
    (jsSplit sep s).getLastD "" = ⟨afterLastSep sep s.data []⟩ := by
  have h1 : ("" : String) = ⟨[]⟩ := rfl
  rw [jsSplit, h1, getLastD_map_mk, getLastD_splitCharAux]
  rfl

theorem afterLastSep_no_sep (sep : Char) (b : List Char) (hb : sep ∉ b) :
    ∀ cur, afterLastSep sep b cur = cur ++ b := by
  induction b with
  | nil => intro cur; simp [afterLastSep]
  | cons c cs ih =>
    intro cur
    have hcs : sep ∉ cs := fun h => hb (List.mem_cons_of_mem _ h)
    have hc : (c == sep) = false := by
      simp only [beq_eq_false_iff_ne, ne_eq]
      intro h; exact hb (h ▸ List.mem_cons_self c cs)
    simp [afterLastSep, hc, ih hcs]

theorem afterLastSep_append_sep (sep : Char) (b : List Char) :
    ∀ (a cur : List Char), afterLastSep sep (a ++ sep :: b) cur = afterLastSep sep b [] := by
  intro a
  induction a with
  | nil => intro cur; simp [afterLastSep]
  | cons c cs ih =>
    intro cur
    by_cases h : c == sep <;> simp [afterLastSep, h, ih]

/-!
Error-message derivation (`getErrorMessage` and the auth-error lookup table).
A thrown JavaScript value is modelled by `JsError`: `null`/`undefined`, an
`Error` instance, a plain object (with the fields `getErrorMessage`
inspects), or a string.
-/

/-- The fields of a plain thrown object that `getErrorMessage` inspects.
`errorNum`/`errorStr` model `obj.error` holding a number resp. a string. -/
structure JsObj where
  errorNum : Option Nat := none
  errorStr : Option String := none
  message : Option String := none
  statusCode : Option Int := none
  statusText : Option String := none
deriving DecidableEq, Repr

deriving instance DecidableEq for Except

/-- A thrown JavaScript value, as far as `getErrorMessage` distinguishes. -/
inductive JsError where
  | null : JsError
  | errorInst (message : String) : JsError
  | obj (o : JsObj) : JsError
  | str (s : String) : JsError
deriving DecidableEq, Repr

def WORKLOAD_AUTH_ERROR_MESSAGES : Nat → Option String
  | 0 => some "Authentication is not supported in this environment. Open this workload through the Fabric portal (https://app.fabric.microsoft.com) instead of localhost."
  | 1 => some "User interaction failed during authentication. Please try again."
  | 2 => some "Workload authentication configuration error. Verify that your Entra App registration (FRONTEND_APPID) and redirect URIs are configured correctly."
  | _ => none

/-- Fallback serialization standing in for `JSON.stringify(err)` on an object
none of whose inspected fields produced a message. -/
def jsonStringifyObj (_o : JsObj) : String := "[object]"

/-- Embedding of `getErrorMessage` (part_000 lines 16-32).  An `Error`
instance with an empty message falls through to object-field inspection in
the source and comes back as its empty `message` string, so the
`errorInst` case returns the message unconditionally. -/
def getErrorMessage : JsError → String
  | .null => "Unknown error"
  | .errorInst message => message
  | .obj o =>
    match o.errorNum with
    | some n =>
      match WORKLOAD_AUTH_ERROR_MESSAGES n with
      | some m => m
      | none => restOfObjInspection o
    | none => restOfObjInspection o
  | .str s => if s = "" then "Unknown error" else s
where
  restOfObjInspection (o : JsObj) : String :=
    match o.errorStr with
    | some s => s
    | none =>
      match o.message with
      | some m => m
      | none =>
        match o.statusCode with
        | some c =>
          "HTTP " ++ toString c ++ ": " ++
            (match o.statusText with
             | some t => if t = "" then "Request failed" else t
             | none => "Request failed")
        | none => jsonStringifyObj o

/-!
The data model of the hook (part_000 lines 38-95): `OneLakeFile`,
`FilePreview`, `OneLakeFileBrowserState`, the previewable-extension sets and
the extension predicates.
-/

/-- A single file from OneLake, flattened for display (part_000 lines 39-54). -/
structure OneLakeFile where
  fullPath : String
  name : String
  relativePath : String
  size : Nat
  lastModified : String
  lakehouseName : String
  lakehouseId : String
deriving DecidableEq, Repr

/-- Preview state for a selected file (part_000 lines 57-62). -/
structure FilePreview where
  file : OneLakeFile
  blobUrl : Option String
  loading : Bool
  error : Option String
deriving DecidableEq, Repr

/-- The root hook state (part_000 lines 64-71). -/
structure OneLakeFileBrowserState where
  files : List OneLakeFile
  selectedFile : Option FilePreview
  loading : Bool
  error : Option String
  workspaceId : Option String
  searchQuery : String
deriving DecidableEq, Repr

/-- The state `useState` is initialized with (part_000 lines 133-140). -/
def initialBrowserState : OneLakeFileBrowserState :=
  { files := [], selectedFile := none, loading := false, error := none,
    workspaceId := none, searchQuery := "" }

def PREVIEWABLE_EXTENSIONS : List String :=
  ["pdf", "png", "jpg", "jpeg", "gif", "webp", "svg"]

def IMAGE_EXTENSIONS : List String :=
  ["png", "jpg", "jpeg", "gif", "webp", "svg"]

/-- `(name.split(".").pop() || "").toLowerCase()` (part_000 lines 81-83).
The split of a string is never empty, so `pop()` is its last element; the
`|| ""` only replaces an empty last segment by the empty string, which
`getLastD ""` already yields. -/
def getFileExtension (name : String) : String :=
  jsToLower ((jsSplit '.' name).getLastD "")

def isPreviewable (name : String) : Bool :=
  PREVIEWABLE_EXTENSIONS.contains (getFileExtension name)

def isImage (name : String) : Bool :=
  IMAGE_EXTENSIONS.contains (getFileExtension name)

def isPdf (name : String) : Bool :=
  getFileExtension name == "pdf"

/-!
The catalog build pipeline (`loadFiles`, part_000 lines 152-271).  The
external collaborators — `workloadClient.itemCrud.getItem`,
`client.workspaces.getAllWorkspaces`, `client.items.getAllItems` and
`client.oneLakeStorage.getPathMetadata` — are modelled by a `CatalogEnv`
record giving the outcome of each call; a call that throws is an `.error`
value, caught where the source catches it.  `console.warn`/`console.error`
messages are collected in a log list returned alongside the new state.
-/

/-- A Fabric item as returned by `client.items.getAllItems`. -/
structure FabricItem where
  id : String
  displayName : String
  type : String
deriving DecidableEq, Repr

/-- One entry of a recursive `getPathMetadata` listing.  `isDirectory` holds
the value of the source's coercion `String(p.isDirectory)`; `contentLength`
and `lastModified` may be absent. -/
structure PathEntry where
  name : String
  isDirectory : String
  contentLength : Option String
  lastModified : Option String
deriving DecidableEq, Repr

/-- Outcomes of the external calls a single `loadFiles` run makes.
`getItemResult` is the workspace id extracted from
`itemResult?.item?.workspaceId || null` (consulted only when an item object
id was supplied); `getAllItems` is keyed by the workspace id it is called
with, `getPathMetadata` by the workspace id and the listing path. -/
structure CatalogEnv where
  getItemResult : Except JsError (Option String)
  getAllWorkspaces : Except JsError (List String)
  getAllItems : String → Except JsError (List FabricItem)
  getPathMetadata : String → String → Except JsError (List PathEntry)

/-- Modelled from the spec: `OneLakeStorageClient.getPath` is defined in
`src/Workload/app/clients/OneLakeStorageClient.ts`, which is not part of the
provided sources.  Spec section 3 describes the result as the "canonical
absolute path usable for read operations (container-qualified)", so the
model joins the workspace id, the item (container) id and the path within
the item with "/" separators. -/
def OneLakeStorageClient.getPath (workspaceId itemId filePath : String) : String :=
  workspaceId ++ "/" ++ itemId ++ "/" ++ filePath

/-- The body of the per-entry loop (part_000 lines 222-249): derive
`fullPath`, `relativePath`, `name`, `size` and `lastModified` from a raw
listing entry of a lakehouse. -/
def entryToFile (workspaceId : String) (lh : FabricItem) (p : PathEntry) : OneLakeFile :=
  let pathArg :=
    if jsStartsWith p.name (lh.id ++ "/") then jsSubstringFrom p.name (jsLength lh.id + 1)
    else p.name
  let fullPath := OneLakeStorageClient.getPath workspaceId lh.id pathArg
  let filesRoot := lh.id ++ "/Files/"
  let relativePath :=
    if jsStartsWith p.name filesRoot then jsSubstringFrom p.name (jsLength filesRoot)
    else p.name
  let popped := (jsSplit '/' relativePath).getLastD ""
  let fileName := if popped = "" then relativePath else popped
  { fullPath := fullPath, name := fileName, relativePath := relativePath,
    size := jsNumberToNat p.contentLength,
    lastModified := p.lastModified.getD "",
    lakehouseName := lh.displayName, lakehouseId := lh.id }

/-- One iteration of the per-lakehouse loop (part_000 lines 208-255): the
files contributed by one lakehouse and the warning logged when its listing
throws (in which case the lakehouse is skipped). -/
def processLakehouse (env : CatalogEnv) (workspaceId : String) (lh : FabricItem) :
    List OneLakeFile × List String :=
  match env.getPathMetadata workspaceId (lh.id ++ "/Files") with
  | .error _ =>
    ([], ["Failed to list files in Lakehouse \"" ++ lh.displayName ++ "\":"])
  | .ok paths =>
    ((paths.filter fun p => p.isDirectory != "true").map (entryToFile workspaceId lh), [])

/-- The concatenated `allFiles` list the loop accumulates. -/
def buildAllFiles (env : CatalogEnv) (workspaceId : String) (lakehouses : List FabricItem) :
    List OneLakeFile :=
  lakehouses.flatMap fun lh => (processLakehouse env workspaceId lh).1

/-- The warnings the loop logs. -/
def buildLogs (env : CatalogEnv) (workspaceId : String) (lakehouses : List FabricItem) :
    List String :=
  lakehouses.flatMap fun lh => (processLakehouse env workspaceId lh).2

/-- Step 1 of `loadFiles` before the fallback (part_000 lines 160-171): the
workspace id resolved from the item, `null` when no item object id was
supplied, when `getItem` threw (caught and logged) or when the result
carried no workspace id. -/
def itemWorkspace (env : CatalogEnv) (itemObjectId : Option String) : Option String :=
  match itemObjectId with
  | none => none
  | some _ =>
    match env.getItemResult with
    | .ok w => w
    | .error _ => none

/-- Steps 1 and 1b of `loadFiles` (part_000 lines 160-179): per-item
resolution, then the accessible-workspace fallback taking the first entry.
An exception from `getAllWorkspaces` propagates to the top-level catch. -/
def resolveWorkspace (env : CatalogEnv) (itemObjectId : Option String) :
    Except JsError (Option String) :=
  match itemWorkspace env itemObjectId with
  | some w => .ok (some w)
  | none =>
    match env.getAllWorkspaces with
    | .error e => .error e
    | .ok [] => .ok none
    | .ok (w :: _) => .ok (some w)

def noWorkspaceFoundMessage : String :=
  "No workspace found. Please ensure you have access to a Fabric workspace."

def noLakehousesMessage : String :=
  "No Lakehouses found in this workspace. Create a Lakehouse and upload files to see them here."

/-- Embedding of one complete `loadFiles` run (part_000 lines 152-271):
given the outcomes of the external calls, the supplied item object id and
the state at the start of the run, it returns the state after the run and
the list of `console.warn`/`console.error` messages logged. -/
def loadFiles (env : CatalogEnv) (itemObjectId : Option String)
    (prev : OneLakeFileBrowserState) : OneLakeFileBrowserState × List String :=
  let s0 := { prev with loading := true, error := none }
  let resolveLogs : List String :=
    match itemObjectId, env.getItemResult with
    | some _, .error _ => ["Could not resolve workspace from item:"]
    | _, _ => []
  match resolveWorkspace env itemObjectId with
  | .error e =>
    ({ s0 with loading := false, error := some (getErrorMessage e) },
     resolveLogs ++ ["Failed to load files:"])
  | .ok none =>
    ({ s0 with loading := false, error := some noWorkspaceFoundMessage }, resolveLogs)
  | .ok (some ws) =>
    match env.getAllItems ws with
    | .error e =>
      ({ s0 with loading := false, error := some (getErrorMessage e) },
       resolveLogs ++ ["Failed to load files:"])
    | .ok items =>
      let lakehouses := items.filter fun it => it.type == "Lakehouse"
      match lakehouses with
      | [] =>
        ({ s0 with loading := false, workspaceId := some ws, files := [],
                   error := some noLakehousesMessage }, resolveLogs)
      | _ :: _ =>
        ({ s0 with files := buildAllFiles env ws lakehouses,
                   workspaceId := some ws, loading := false },
         resolveLogs ++ buildLogs env ws lakehouses)

/-!
The preview resource lifecycle (part_000 lines 283-364).  `selectFile` first
synchronously revokes the previous blob URL and installs a loading preview,
then awaits the fetch and installs either a ready preview holding a freshly
created blob URL or an error preview.  `URL.createObjectURL` /
`URL.revokeObjectURL` calls are recorded as `ResEvent`s so that liveness of
resource handles can be stated over the whole event sequence.
-/

/-- A blob-URL lifecycle event: `URL.createObjectURL` returning `url`, or
`URL.revokeObjectURL(url)`. -/
inductive ResEvent where
  | create (url : String) : ResEvent
  | revoke (url : String) : ResEvent
deriving DecidableEq, Repr

/-- The blob URLs held by a state: the selected preview's `blobUrl`, if any.
By construction at most one. -/
def stateHandles (s : OneLakeFileBrowserState) : List String :=
  match s.selectedFile with
  | some p => p.blobUrl.toList
  | none => []

/-- The set of live (created and not yet revoked) URLs after one event. -/
def liveStep (live : List String) : ResEvent → List String
  | .create u => live ++ [u]
  | .revoke u => live.erase u

/-- `true` when, starting from `live`, the live set stays of size at most
one after every event of the list. -/
def liveBoundedRun (live : List String) : List ResEvent → Bool
  | [] => true
  | e :: es => decide ((liveStep live e).length ≤ 1) && liveBoundedRun (liveStep live e) es

/-- The URLs revoked by the first `setState` of `selectFile` (part_000
lines 288-291): the previous preview's blob URL, when non-null. -/
def selectFileBeginRevokes (prev : OneLakeFileBrowserState) : List String :=
  stateHandles prev

/-- The state installed by the first `setState` of `selectFile` (part_000
lines 292-295): the loading preview for `file`. -/
def selectFileBegin (file : OneLakeFile) (prev : OneLakeFileBrowserState) :
    OneLakeFileBrowserState :=
  { prev with selectedFile := (some ⟨file, none, true, none⟩) }

/-- The state installed when the fetch settles (part_000 lines 298-325):
on success the ready preview holding the created blob URL, on failure the
error preview. -/
def selectFileResolve (file : OneLakeFile) (fetch : Except JsError String)
    (s : OneLakeFileBrowserState) : OneLakeFileBrowserState :=
  match fetch with
  | .ok blobUrl =>
    { s with selectedFile := some ⟨file, some blobUrl, false, none⟩ }
  | .error err =>
    { s with selectedFile :=
        (some ⟨file, none, false, some ("Failed to load file: " ++ getErrorMessage err)⟩) }

/-- One complete, uninterleaved `selectFile` call: begin, then resolve.
`fetch` is the outcome of `readFileAsBase64` plus decoding; on success it
carries the blob URL `URL.createObjectURL` returned. -/
def selectFileRun (file : OneLakeFile) (fetch : Except JsError String)
    (prev : OneLakeFileBrowserState) : OneLakeFileBrowserState :=
  selectFileResolve file fetch (selectFileBegin file prev)

/-- The blob-URL events of one complete `selectFile` call, in program
order: the begin-phase revocation, then (on success) the creation of the
new URL. -/
def selectFileEvents (fetch : Except JsError String)
    (prev : OneLakeFileBrowserState) : List ResEvent :=
  (selectFileBeginRevokes prev).map ResEvent.revoke ++
    (match fetch with
     | .ok u => [ResEvent.create u]
     | .error _ => [])

/-- The blob-URL events of two consecutive (non-overlapping) `selectFile`
calls starting from `prev`. -/
def twoSelectEvents (fileX : OneLakeFile) (rx : Except JsError String)
    (ry : Except JsError String) (prev : OneLakeFileBrowserState) : List ResEvent :=
  selectFileEvents rx prev ++ selectFileEvents ry (selectFileRun fileX rx prev)

/-- `closePreview` (part_000 lines 328-335): revoked URLs and new state. -/
def closePreview (prev : OneLakeFileBrowserState) :
    OneLakeFileBrowserState × List String :=
  ({ prev with selectedFile := none }, stateHandles prev)

/-- The cleanup function returned by the unmount effect (part_000 lines
357-364): it revokes the blob URL of the state it captured.  Because the
effect's dependency array is empty it runs only once, after the first
render, so the state its cleanup closure captured is the state of that
first render — `initialBrowserState` — not the state current at unmount. -/
def unmountCleanupRevokes (capturedState : OneLakeFileBrowserState) : List String :=
  stateHandles capturedState

/-- `setSearchQuery` (part_000 lines 349-351). -/
def setSearchQuery (query : String) (prev : OneLakeFileBrowserState) :
    OneLakeFileBrowserState :=
  { prev with searchQuery := query }

/-- `clearError` (part_000 lines 353-355). -/
def clearError (prev : OneLakeFileBrowserState) : OneLakeFileBrowserState :=
  { prev with error := none }

/-- The derived `filteredFiles` (part_000 lines 369-374): all files when the
query is empty (falsy), otherwise those whose lowercased name or lakehouse
name contains the lowercased query. -/
def filteredFiles (s : OneLakeFileBrowserState) : List OneLakeFile :=
  if s.searchQuery = "" then s.files
  else
    s.files.filter fun f =>
      jsIncludes (jsToLower f.name) (jsToLower s.searchQuery) ||
        jsIncludes (jsToLower f.lakehouseName) (jsToLower s.searchQuery)

/-!
Claim theorems.
-/

/-- C1: the claim says disposing the manager while the preview is ready
releases the blob URL exactly once.  The cleanup effect's dependency array
is empty, so the cleanup closure runs with the state captured at mount —
`initialBrowserState`, whose `selectedFile` is `none` — and therefore
revokes nothing, whatever the state at unmount holds.  This theorem
evaluates the cleanup at that captured state. -/
theorem unmount_cleanup_revokes_nothing :
    unmountCleanupRevokes initialBrowserState = [] := rfl

/-- C9: filtering semantics and restoration: setting the query to the empty
string makes the visible files exactly `files`; `setSearchQuery` never
changes `files` or the preview; the visible files are a subsequence of
`files`; and for a non-empty query the visible files are exactly those
whose lowercased name or lakehouse name contains the lowercased query. -/
theorem filter_semantics_and_restoration (s : OneLakeFileBrowserState) (q : String) :
    filteredFiles (setSearchQuery "" s) = s.files ∧
    (setSearchQuery q s).files = s.files ∧
    (setSearchQuery q s).selectedFile = s.selectedFile ∧
    List.Sublist (filteredFiles s) s.files ∧
    (q ≠ "" → ∀ f, f ∈ filteredFiles (setSearchQuery q s) ↔
      f ∈ s.files ∧ (jsIncludes (jsToLower f.name) (jsToLower q) ||
        jsIncludes (jsToLower f.lakehouseName) (jsToLower q)) = true) := by
  refine ⟨?_, rfl, rfl, ?_, ?_⟩
  · simp [filteredFiles, setSearchQuery]
  · by_cases h : s.searchQuery = "" <;> simp [filteredFiles, h, List.filter_sublist]
  · intro hq f
    simp [filteredFiles, setSearchQuery, hq, List.mem_filter]

def sampleLakehouse : FabricItem := ⟨"c1", "Container One", "Lakehouse"⟩

def sampleEntry : PathEntry :=
  ⟨"c1/Files/sub/doc.pdf", "false", some "42", some "2024-01-01"⟩

def sampleFile : OneLakeFile := entryToFile "ws" sampleLakehouse sampleEntry

def sampleState : OneLakeFileBrowserState :=
  { initialBrowserState with files := [sampleFile] }

/-- Witness for C9 at a concrete state and query. -/
theorem filter_semantics_and_restoration_witness :
    filteredFiles (setSearchQuery "" sampleState) = sampleState.files ∧
    sampleFile ∈ filteredFiles (setSearchQuery "one" sampleState) :=
  ⟨(filter_semantics_and_restoration sampleState "one").1,
   (((filter_semantics_and_restoration sampleState "one").2.2.2.2 (by decide)
      sampleFile).mpr ⟨by simp [sampleState], by decide⟩)⟩

/-- C10: the previewable extensions are exactly the image extensions plus
"pdf", and all three predicates depend only on the lowercased text after
the last "." of the name (the whole lowercased name when it has no "."). -/
theorem previewable_iff_image_or_pdf :
    (∀ n, isPreviewable n = (isImage n || isPdf n)) ∧
    (∀ n, getFileExtension n = jsToLower ⟨afterLastSep '.' n.data []⟩) ∧
    (∀ a b : List Char, '.' ∉ b → getFileExtension ⟨a ++ '.' :: b⟩ = jsToLower ⟨b⟩) ∧
    (∀ n : String, '.' ∉ n.data → getFileExtension n = jsToLower n) ∧
    (∀ n₁ n₂, getFileExtension n₁ = getFileExtension n₂ →
      isPreviewable n₁ = isPreviewable n₂ ∧ isImage n₁ = isImage n₂ ∧
        isPdf n₁ = isPdf n₂) := by
  refine ⟨?_, ?_, ?_, ?_, ?_⟩
  · intro n
    have hP : PREVIEWABLE_EXTENSIONS = "pdf" :: IMAGE_EXTENSIONS := rfl
    rw [isPreviewable, isImage, isPdf, hP,
      List.contains_cons]
    exact Bool.or_comm _ _
  · intro n
    rw [getFileExtension, jsSplit_getLastD]
  · intro a b hb
    have hd : (⟨a ++ '.' :: b⟩ : String).data = a ++ '.' :: b := rfl
    rw [getFileExtension, jsSplit_getLastD, hd, afterLastSep_append_sep,
      afterLastSep_no_sep '.' b hb]
    rw [List.nil_append]
  · intro n hn
    rw [getFileExtension, jsSplit_getLastD, afterLastSep_no_sep '.' n.data hn,
      List.nil_append, strEta]
  · intro n₁ n₂ h
    rw [isPreviewable, isImage, isPdf, h]
    exact ⟨rfl, rfl, rfl⟩

/-- Witness for C10 at concrete names. -/
theorem previewable_iff_image_or_pdf_witness :
    isPreviewable "photo.JPG" = (isImage "photo.JPG" || isPdf "photo.JPG") ∧
    getFileExtension ⟨['d', 'o', 'c'] ++ '.' :: ['P', 'D', 'F']⟩ = jsToLower ⟨['P', 'D', 'F']⟩ ∧
    getFileExtension "README" = jsToLower "README" ∧
    isPdf "a.pdf" = isPdf "b.pdf" :=
  ⟨previewable_iff_image_or_pdf.1 "photo.JPG",
   previewable_iff_image_or_pdf.2.2.1 ['d', 'o', 'c'] ['P', 'D', 'F'] (by decide),
   previewable_iff_image_or_pdf.2.2.2.1 "README" (by decide),
   (previewable_iff_image_or_pdf.2.2.2.2 "a.pdf" "b.pdf" (by decide)).2.2⟩

/-- The name-derivation rule exactly as the claim words it: `name` is the
final "/"-separated segment of `relativePath`, and falls back to the full
`relativePath` only when `relativePath` contains no separator. -/
def specDerivedName (relativePath : String) : String :=
  if '/' ∈ relativePath.data then ⟨afterLastSep '/' relativePath.data []⟩
  else relativePath

/-- C5 counterexample: for the non-directory entry named "c1/Files/sub/"
under container "c1", the code derives `name = "sub/"` (the `pop() ||
relativePath` fallback fires because the final segment is empty), while the
claim's rule yields the final segment "" — so the claim's general
name rule is false at this entry. -/
theorem flattening_name_rule_counterexample :
    (entryToFile "ws" ⟨"c1", "Container One", "Lakehouse"⟩
        ⟨"c1/Files/sub/", "false", none, none⟩).name ≠
      specDerivedName (entryToFile "ws" ⟨"c1", "Container One", "Lakehouse"⟩
        ⟨"c1/Files/sub/", "false", none, none⟩).relativePath := by decide

/-- C5 amended: for an entry named `containerId ++ "/Files/" ++ rest`, the
derived `relativePath` is `rest`, and `name` is the final "/"-separated
segment of `rest`, falling back to the full `rest` when that final segment
is empty (so in particular when `rest` has no separator). -/
theorem flattening_correctness (ws : String) (lh : FabricItem) (p : PathEntry)
    (rest : String) (h : p.name = lh.id ++ "/Files/" ++ rest) :
    (entryToFile ws lh p).relativePath = rest ∧
    (entryToFile ws lh p).name =
      (if (⟨afterLastSep '/' rest.data []⟩ : String) = "" then rest
       else ⟨afterLastSep '/' rest.data []⟩) := by
  have hd : p.name.data = (lh.id ++ "/Files/").data ++ rest.data := by
    rw [h, ← String.data_append]
  have h1 : jsStartsWith p.name (lh.id ++ "/Files/") = true :=
    jsStartsWith_of_append _ _ _ hd
  have h2 : jsSubstringFrom p.name (jsLength (lh.id ++ "/Files/")) = rest := by
    rw [jsSubstringFrom_append _ rest.data _ hd, strEta]
  have hrel : (entryToFile ws lh p).relativePath = rest := by
    simp only [entryToFile, h1, if_true]
    exact h2
  refine ⟨hrel, ?_⟩
  have hname : (entryToFile ws lh p).name =
      (if (jsSplit '/' (entryToFile ws lh p).relativePath).getLastD "" = ""
       then (entryToFile ws lh p).relativePath
       else (jsSplit '/' (entryToFile ws lh p).relativePath).getLastD "") := by
    simp only [entryToFile]
  rw [hname, hrel, jsSplit_getLastD]

/-- Witness for C5 (amended) at the claim's own example entry. -/
theorem flattening_correctness_witness :
    (entryToFile "ws" sampleLakehouse sampleEntry).relativePath = "sub/doc.pdf" ∧
    (entryToFile "ws" sampleLakehouse sampleEntry).name = "doc.pdf" := by
  have h := flattening_correctness "ws" sampleLakehouse sampleEntry "sub/doc.pdf"
    (by decide)
  refine ⟨h.1, ?_⟩
  rw [h.2]
  decide

/-- C3: partial-failure tolerance: when container A's recursive listing
throws and container B's succeeds, the build completes with B's files as
the whole `files` list, top-level `error = null`, `loading = false`, and a
logged warning naming A; the failure of A never aborts the build. -/
theorem partial_failure_tolerance (env : CatalogEnv) (itemObjectId : Option String)
    (prev : OneLakeFileBrowserState) (ws : String) (items : List FabricItem)
    (A B : FabricItem) (e : JsError) (psB : List PathEntry)
    (h1 : resolveWorkspace env itemObjectId = .ok (some ws))
    (h2 : env.getAllItems ws = .ok items)
    (h3 : items.filter (fun it => it.type == "Lakehouse") = [A, B])
    (h4 : env.getPathMetadata ws (A.id ++ "/Files") = .error e)
    (h5 : env.getPathMetadata ws (B.id ++ "/Files") = .ok psB) :
    (loadFiles env itemObjectId prev).1.files =
      (psB.filter fun p => p.isDirectory != "true").map (entryToFile ws B) ∧
    (loadFiles env itemObjectId prev).1.error = none ∧
    (loadFiles env itemObjectId prev).1.loading = false ∧
    ("Failed to list files in Lakehouse \"" ++ A.displayName ++ "\":") ∈
      (loadFiles env itemObjectId prev).2 := by
  simp [loadFiles, h1, h2, h3, buildAllFiles, buildLogs, processLakehouse, h4, h5]

/-- C4: top-level failure atomicity: when the fallback workspace-list call
throws (the resolver stage), or the top-level item-listing call throws, the
run ends with `error` set to the message derived from the failure,
`loading = false`, and `files` (and the rest of the state) unchanged. -/
theorem top_level_failure_atomicity (env : CatalogEnv) (itemObjectId : Option String)
    (prev : OneLakeFileBrowserState) :
    (∀ e, resolveWorkspace env itemObjectId = .error e →
      (loadFiles env itemObjectId prev).1 =
        { prev with loading := false, error := some (getErrorMessage e) }) ∧
    (∀ (ws : String) (e : JsError), resolveWorkspace env itemObjectId = .ok (some ws) →
      env.getAllItems ws = .error e →
      (loadFiles env itemObjectId prev).1 =
        { prev with loading := false, error := some (getErrorMessage e) }) := by
  constructor
  · intro e h
    simp [loadFiles, h]
  · intro ws e h1 h2
    simp [loadFiles, h1, h2]

/-- C6: fallback workspace resolution: when per-item resolution fails or
yields nothing, the first entry of the accessible-workspace list is taken
and the build proceeds with it (its id ends up in `workspaceId` whenever
the item-listing call succeeds); when the fallback list is empty too, the
build terminates with the "no workspace found" error, `loading = false`,
and everything else (in particular `files`) untouched. -/
theorem workspace_fallback_resolution (env : CatalogEnv) (itemObjectId : Option String)
    (prev : OneLakeFileBrowserState) (h0 : itemWorkspace env itemObjectId = none) :
    (∀ w rest, env.getAllWorkspaces = .ok (w :: rest) →
      resolveWorkspace env itemObjectId = .ok (some w) ∧
      ∀ items, env.getAllItems w = .ok items →
        (loadFiles env itemObjectId prev).1.workspaceId = some w) ∧
    (env.getAllWorkspaces = .ok [] →
      (loadFiles env itemObjectId prev).1 =
        { prev with loading := false, error := some noWorkspaceFoundMessage }) := by
  constructor
  · intro w rest hwl
    have hres : resolveWorkspace env itemObjectId = .ok (some w) := by
      rw [resolveWorkspace, h0, hwl]
    refine ⟨hres, ?_⟩
    intro items hitems
    rcases hlk : items.filter (fun it => it.type == "Lakehouse") with _ | ⟨lh, lhs⟩ <;>
      simp [loadFiles, hres, hitems, hlk]
  · intro hwl
    have hres : resolveWorkspace env itemObjectId = .ok none := by
      rw [resolveWorkspace, h0, hwl]
    simp [loadFiles, hres]

/-- A concrete environment: per-item resolution throws, the fallback list
is ["ws1", "ws2"], workspace "ws1" holds lakehouse A (whose listing
throws), a notebook, and lakehouse B (one directory, one file). -/
def sampleEnv : CatalogEnv :=
  { getItemResult := .error (.str "boom"),
    getAllWorkspaces := .ok ["ws1", "ws2"],
    getAllItems := fun w =>
      if w == "ws1" then
        .ok [⟨"la", "A", "Lakehouse"⟩, ⟨"nb", "N", "Notebook"⟩, ⟨"lb", "B", "Lakehouse"⟩]
      else .error .null,
    getPathMetadata := fun _ p =>
      if p == "la/Files" then .error (.str "denied")
      else if p == "lb/Files" then
        .ok [⟨"lb/Files/d", "true", none, none⟩,
             ⟨"lb/Files/doc.pdf", "false", some "7", some "t"⟩]
      else .ok [] }

/-- Witness for C3 at `sampleEnv`. -/
theorem partial_failure_tolerance_witness :
    (loadFiles sampleEnv (some "item") initialBrowserState).1.files =
      ([(⟨"lb/Files/d", "true", none, none⟩ : PathEntry),
        ⟨"lb/Files/doc.pdf", "false", some "7", some "t"⟩].filter
          fun p => p.isDirectory != "true").map
        (entryToFile "ws1" ⟨"lb", "B", "Lakehouse"⟩) ∧
    (loadFiles sampleEnv (some "item") initialBrowserState).1.error = none ∧
    (loadFiles sampleEnv (some "item") initialBrowserState).1.loading = false ∧
    ("Failed to list files in Lakehouse \"" ++ "A" ++ "\":") ∈
      (loadFiles sampleEnv (some "item") initialBrowserState).2 :=
  partial_failure_tolerance sampleEnv (some "item") initialBrowserState "ws1"
    [⟨"la", "A", "Lakehouse"⟩, ⟨"nb", "N", "Notebook"⟩, ⟨"lb", "B", "Lakehouse"⟩]
    ⟨"la", "A", "Lakehouse"⟩ ⟨"lb", "B", "Lakehouse"⟩ (.str "denied")
    [⟨"lb/Files/d", "true", none, none⟩, ⟨"lb/Files/doc.pdf", "false", some "7", some "t"⟩]
    (by decide) (by decide) (by decide) (by decide) (by decide)

/-- A thrown HTTP-500-shaped error object. -/
def http500Error : JsError := .obj { statusCode := some 500 }

/-- An environment whose fallback workspace-list call throws. -/
def failingListEnv : CatalogEnv :=
  { getItemResult := .ok none,
    getAllWorkspaces := .error http500Error,
    getAllItems := fun _ => .error .null,
    getPathMetadata := fun _ _ => .ok [] }

/-- An environment whose top-level item-listing call throws. -/
def failingItemsEnv : CatalogEnv :=
  { getItemResult := .ok (some "ws9"),
    getAllWorkspaces := .ok [],
    getAllItems := fun _ => .error (.str "listing failed"),
    getPathMetadata := fun _ _ => .ok [] }

/-- Witness for C4 at two concrete environments: one whose fallback
workspace-list call throws, one whose item-listing call throws; in both
cases the previously committed `files` of `sampleState` survive. -/
theorem top_level_failure_atomicity_witness :
    (loadFiles failingListEnv (some "item") sampleState).1 =
      { sampleState with loading := false
                         error := some (getErrorMessage http500Error) } ∧
    (loadFiles failingItemsEnv (some "item") sampleState).1 =
      { sampleState with loading := false
                         error := some (getErrorMessage (.str "listing failed")) } :=
  ⟨(top_level_failure_atomicity failingListEnv (some "item") sampleState).1
      http500Error (by decide),
   (top_level_failure_atomicity failingItemsEnv (some "item") sampleState).2
      "ws9" (.str "listing failed") (by decide) (by decide)⟩

/-- An environment in which neither resolution route finds a workspace. -/
def noWorkspaceEnv : CatalogEnv :=
  { getItemResult := .ok none,
    getAllWorkspaces := .ok [],
    getAllItems := fun _ => .ok [],
    getPathMetadata := fun _ _ => .ok [] }

/-- Witness for C6: with per-item resolution throwing and fallback list
["ws1", "ws2"], the build proceeds with "ws1"; with an empty fallback list
the build terminates with the no-workspace error and `files` untouched. -/
theorem workspace_fallback_resolution_witness :
    resolveWorkspace sampleEnv (some "item") = .ok (some "ws1") ∧
    (loadFiles sampleEnv (some "item") initialBrowserState).1.workspaceId = some "ws1" ∧
    (loadFiles noWorkspaceEnv (some "item") sampleState).1 =
      { sampleState with loading := false, error := some noWorkspaceFoundMessage } := by
  have h := workspace_fallback_resolution sampleEnv (some "item") initialBrowserState
    (by decide)
  have h2 := workspace_fallback_resolution noWorkspaceEnv (some "item") sampleState
    (by decide)
  exact ⟨(h.1 "ws1" ["ws2"] (by decide)).1,
    (h.1 "ws1" ["ws2"] (by decide)).2
      [⟨"la", "A", "Lakehouse"⟩, ⟨"nb", "N", "Notebook"⟩, ⟨"lb", "B", "Lakehouse"⟩]
      (by decide),
    h2.2 (by decide)⟩

/-- C2: resource exclusivity across two consecutive (non-overlapping)
`selectFile` calls: the prior state holds at most one blob URL; starting
from it, after every single `URL.createObjectURL`/`URL.revokeObjectURL`
event of the two calls at most one URL is live; and when both fetches
succeed, the first call's URL is revoked strictly before the second call's
URL is created (even when the same file is selected twice). -/
theorem select_resource_exclusivity (prev : OneLakeFileBrowserState)
    (fileX : OneLakeFile) (rx ry : Except JsError String) :
    (stateHandles prev).length ≤ 1 ∧
    liveBoundedRun (stateHandles prev) (twoSelectEvents fileX rx ry prev) = true ∧
    (∀ u₁ u₂, rx = .ok u₁ → ry = .ok u₂ →
      List.Sublist [ResEvent.revoke u₁, ResEvent.create u₂]
        (twoSelectEvents fileX rx ry prev)) := by
  obtain ⟨files, sel, ld, er, wsid, q⟩ := prev
  have hsel : ∀ (s : Option FilePreview), (stateHandles ⟨files, s, ld, er, wsid, q⟩).length ≤ 1 := by
    intro s
    rcases s with _ | ⟨pf, pb, pl, pe⟩
    · simp [stateHandles]
    · rcases pb with _ | u <;> simp [stateHandles]
  refine ⟨hsel sel, ?_, ?_⟩
  · rcases sel with _ | ⟨f0, b0, l0, e0⟩
    · rcases rx with ex | ux <;> rcases ry with ey | uy <;>
        simp [twoSelectEvents, selectFileEvents, selectFileBeginRevokes, stateHandles,
          selectFileRun, selectFileResolve, selectFileBegin, liveBoundedRun, liveStep]
    · rcases b0 with _ | u0 <;> rcases rx with ex | ux <;> rcases ry with ey | uy <;>
        simp [twoSelectEvents, selectFileEvents, selectFileBeginRevokes, stateHandles,
          selectFileRun, selectFileResolve, selectFileBegin, liveBoundedRun, liveStep]
  · intro u₁ u₂ hx hy
    subst hx
    subst hy
    have htail : List.Sublist [ResEvent.revoke u₁, ResEvent.create u₂]
        (selectFileEvents (.ok u₂) (selectFileRun fileX (.ok u₁)
          ⟨files, sel, ld, er, wsid, q⟩)) := by
      simp only [selectFileEvents, selectFileBeginRevokes, selectFileRun,
        selectFileResolve, selectFileBegin, stateHandles, Option.toList]
      exact List.Sublist.refl _
    exact List.Sublist.trans htail (List.sublist_append_right _ _)

/-- A prior state holding a live blob URL for the sample file. -/
def readyPreviewState : OneLakeFileBrowserState :=
  { sampleState with selectedFile := (some ⟨sampleFile, some "blob:u0", false, none⟩) }

/-- Witness for C2 at a concrete ready state and two successful fetches. -/
theorem select_resource_exclusivity_witness :
    liveBoundedRun (stateHandles readyPreviewState)
      (twoSelectEvents sampleFile (.ok "blob:u1") (.ok "blob:u2") readyPreviewState) = true ∧
    List.Sublist [ResEvent.revoke "blob:u1", ResEvent.create "blob:u2"]
      (twoSelectEvents sampleFile (.ok "blob:u1") (.ok "blob:u2") readyPreviewState) :=
  ⟨(select_resource_exclusivity readyPreviewState sampleFile (.ok "blob:u1")
      (.ok "blob:u2")).2.1,
   (select_resource_exclusivity readyPreviewState sampleFile (.ok "blob:u1")
      (.ok "blob:u2")).2.2 "blob:u1" "blob:u2" rfl rfl⟩

/-- C8: directory exclusion: in any build reaching the listing stage, every
record of the resulting `files` derives from a listing entry whose
`isDirectory` flag is not "true" — entries flagged as directories never
appear. -/
theorem directory_exclusion (env : CatalogEnv) (itemObjectId : Option String)
    (prev : OneLakeFileBrowserState) (ws : String) (items : List FabricItem)
    (h1 : resolveWorkspace env itemObjectId = .ok (some ws))
    (h2 : env.getAllItems ws = .ok items) :
    ∀ f ∈ (loadFiles env itemObjectId prev).1.files,
      ∃ lh, lh ∈ items.filter (fun it => it.type == "Lakehouse") ∧
        ∃ ps, env.getPathMetadata ws (lh.id ++ "/Files") = .ok ps ∧
          ∃ p, p ∈ ps ∧ (p.isDirectory == "true") = false ∧ f = entryToFile ws lh p := by
  rcases hlk : items.filter (fun it => it.type == "Lakehouse") with _ | ⟨A, rest⟩
  · simp [loadFiles, h1, h2, hlk]
  · intro f hf
    have hmem : f ∈ buildAllFiles env ws (A :: rest) := by
      simpa [loadFiles, h1, h2, hlk] using hf
    rw [buildAllFiles, List.mem_flatMap] at hmem
    obtain ⟨lh, hlh, hmem⟩ := hmem
    refine ⟨lh, by rw [hlk]; exact hlh, ?_⟩
    rcases hpm : env.getPathMetadata ws (lh.id ++ "/Files") with e | ps
    · rw [processLakehouse, hpm] at hmem
      simp at hmem
    · refine ⟨ps, rfl, ?_⟩
      rw [processLakehouse, hpm] at hmem
      simp only [List.mem_map, List.mem_filter] at hmem
      obtain ⟨p, ⟨hp, hdir⟩, rfl⟩ := hmem
      refine ⟨p, hp, ?_, rfl⟩
      simpa using hdir

/-- Witness for C8: in the `sampleEnv` build, the single resulting file is
traced back to the non-directory entry "lb/Files/doc.pdf". -/
theorem directory_exclusion_witness :
    entryToFile "ws1" ⟨"lb", "B", "Lakehouse"⟩
        ⟨"lb/Files/doc.pdf", "false", some "7", some "t"⟩ ∈
      (loadFiles sampleEnv (some "item") initialBrowserState).1.files ∧
    ∃ lh, lh ∈ ([⟨"la", "A", "Lakehouse"⟩, ⟨"nb", "N", "Notebook"⟩,
        ⟨"lb", "B", "Lakehouse"⟩] : List FabricItem).filter
          (fun it => it.type == "Lakehouse") ∧
      ∃ ps, sampleEnv.getPathMetadata "ws1" (lh.id ++ "/Files") = .ok ps ∧
        ∃ p, p ∈ ps ∧ (p.isDirectory == "true") = false ∧
          entryToFile "ws1" ⟨"lb", "B", "Lakehouse"⟩
            ⟨"lb/Files/doc.pdf", "false", some "7", some "t"⟩ = entryToFile "ws1" lh p := by
  have hfiles : (loadFiles sampleEnv (some "item") initialBrowserState).1.files =
      [entryToFile "ws1" ⟨"lb", "B", "Lakehouse"⟩
        ⟨"lb/Files/doc.pdf", "false", some "7", some "t"⟩] := by decide
  have hmem : entryToFile "ws1" ⟨"lb", "B", "Lakehouse"⟩
      ⟨"lb/Files/doc.pdf", "false", some "7", some "t"⟩ ∈
        (loadFiles sampleEnv (some "item") initialBrowserState).1.files := by
    rw [hfiles]
    exact List.mem_singleton_self _
  exact ⟨hmem, directory_exclusion sampleEnv (some "item") initialBrowserState "ws1"
    [⟨"la", "A", "Lakehouse"⟩, ⟨"nb", "N", "Notebook"⟩, ⟨"lb", "B", "Lakehouse"⟩]
    (by decide) (by decide) _ hmem⟩

theorem strInjData (s t : String) (h : s.data = t.data) : s = t := by
  cases s
  cases t
  exact congrArg String.mk h

/-- Splitting a list at a distinguished separator character is unambiguous
when neither left part contains the separator. -/
theorem seg_inj (l₁ : List Char) : ∀ (l₂ s₁ s₂ : List Char), '/' ∉ l₁ → '/' ∉ l₂ →
    l₁ ++ '/' :: s₁ = l₂ ++ '/' :: s₂ → l₁ = l₂ ∧ s₁ = s₂ := by
  induction l₁ with
  | nil =>
    intro l₂ s₁ s₂ _ h₂ h
    cases l₂ with
    | nil => simpa using h
    | cons b bs =>
      rw [List.nil_append, List.cons_append] at h
      injection h with hb _
      exact absurd (hb ▸ List.mem_cons_self b bs) h₂
  | cons a as ih =>
    intro l₂ s₁ s₂ h₁ h₂ h
    cases l₂ with
    | nil =>
      rw [List.nil_append, List.cons_append] at h
      injection h with ha _
      exact absurd (ha ▸ List.mem_cons_self a as) h₁
    | cons b bs =>
      rw [List.cons_append, List.cons_append] at h
      injection h with hab htail
      have has : '/' ∉ as := fun hm => h₁ (List.mem_cons_of_mem _ hm)
      have hbs : '/' ∉ bs := fun hm => h₂ (List.mem_cons_of_mem _ hm)
      obtain ⟨hl, hs⟩ := ih bs s₁ s₂ has hbs htail
      exact ⟨by rw [hab, hl], hs⟩

theorem drop_append_cons (a : List Char) (c : Char) (t : List Char) :
    (a ++ c :: t).drop (a.length + 1) = t := by
  induction a with
  | nil => simp
  | cons x xs ih =>
    simp only [List.cons_append, List.length_cons, List.drop_succ_cons]
    exact ih

theorem jsStartsWith_exists (s pre : String) (h : jsStartsWith s pre = true) :
    ∃ r, s.data = pre.data ++ r := by
  refine ⟨s.data.drop pre.data.length, ?_⟩
  rw [jsStartsWith, beq_iff_eq] at h
  conv_lhs => rw [← List.take_append_drop pre.data.length s.data]
  rw [h]

theorem getPath_data (w i f : String) :
    (OneLakeStorageClient.getPath w i f).data = w.data ++ '/' :: (i.data ++ '/' :: f.data) := by
  have hs : ("/" : String).data = ['/'] := rfl
  rw [OneLakeStorageClient.getPath, String.data_append, String.data_append,
    String.data_append, hs]
  simp

/-- For an entry whose name is the container id, a separator, and a tail
`t`, the derived `fullPath`'s characters are the workspace id, the
container id and `t`, "/"-joined. -/
theorem entry_fullPath_data (ws : String) (lh : FabricItem) (p : PathEntry) (t : List Char)
    (hd : p.name.data = lh.id.data ++ '/' :: t) :
    (entryToFile ws lh p).fullPath.data = ws.data ++ '/' :: (lh.id.data ++ '/' :: t) := by
  have hstart : jsStartsWith p.name (lh.id ++ "/") = true := by
    apply jsStartsWith_of_append _ _ t
    rw [hd, String.data_append]
    simp
  have hlen : jsLength lh.id + 1 = lh.id.data.length + 1 := rfl
  have harg : jsSubstringFrom p.name (jsLength lh.id + 1) = ⟨t⟩ := by
    rw [jsSubstringFrom, hlen, hd, drop_append_cons]
  simp only [entryToFile, hstart, if_true]
  rw [harg, getPath_data]

/-- The name of an entry that starts with the container's files root has the
separator form required by `entry_fullPath_data`. -/
theorem name_seg_form (lh : FabricItem) (p : PathEntry)
    (h : jsStartsWith p.name (lh.id ++ "/Files/") = true) :
    ∃ r, p.name.data = lh.id.data ++ '/' :: (("Files/" : String).data ++ r) := by
  obtain ⟨r, hr⟩ := jsStartsWith_exists _ _ h
  refine ⟨r, ?_⟩
  rw [hr, String.data_append]
  have hf : ("/Files/" : String).data = '/' :: ("Files/" : String).data := rfl
  rw [hf]
  simp

/-- Within one container, entries in separator form with equal derived
`fullPath`s have equal names. -/
theorem entry_fullPath_inj (ws : String) (lh : FabricItem) (p q : PathEntry)
    (tp tq : List Char)
    (hp : p.name.data = lh.id.data ++ '/' :: tp)
    (hq : q.name.data = lh.id.data ++ '/' :: tq)
    (h : (entryToFile ws lh p).fullPath = (entryToFile ws lh q).fullPath) :
    p.name = q.name := by
  have hd := congrArg String.data h
  rw [entry_fullPath_data ws lh p tp hp, entry_fullPath_data ws lh q tq hq] at hd
  have h1 := List.append_cancel_left hd
  injection h1 with _ h2
  have h3 := List.append_cancel_left h2
  injection h3 with _ h4
  apply strInjData
  rw [hp, hq, h4]

/-- The recursive listing of a lakehouse's files root, empty when the call
threw; `processLakehouse` maps over exactly this list (minus directories). -/
def lakehouseListing (env : CatalogEnv) (ws : String) (lh : FabricItem) : List PathEntry :=
  match env.getPathMetadata ws (lh.id ++ "/Files") with
  | .ok ps => ps
  | .error _ => []

/-- Any fullPath contributed by one lakehouse has the "ws/id/..." shape,
provided each of its listed entries starts with the container's files root. -/
theorem mem_lakehouse_fullPath_form (env : CatalogEnv) (ws : String) (lh : FabricItem)
    (hst : ∀ p ∈ lakehouseListing env ws lh, jsStartsWith p.name (lh.id ++ "/Files/") = true)
    (x : String) (hx : x ∈ (processLakehouse env ws lh).1.map OneLakeFile.fullPath) :
    ∃ t, x.data = ws.data ++ '/' :: (lh.id.data ++ '/' :: t) := by
  rcases hpm : env.getPathMetadata ws (lh.id ++ "/Files") with e | ps
  · simp [processLakehouse, hpm] at hx
  · have hps : lakehouseListing env ws lh = ps := by rw [lakehouseListing, hpm]
    simp only [processLakehouse, hpm] at hx
    rw [List.map_map] at hx
    obtain ⟨p, hp, rfl⟩ := List.mem_map.mp hx
    obtain ⟨r, hr⟩ := name_seg_form lh p (hst p (by rw [hps]; exact List.mem_of_mem_filter hp))
    exact ⟨_, entry_fullPath_data ws lh p _ hr⟩

/-- C7: fullPath uniqueness: in any build over lakehouses with pairwise
distinct, separator-free ids, whose listings hold pairwise distinct entry
names all starting with the respective container's files root, the
resulting `files` collection has pairwise distinct `fullPath`s. -/
theorem fullPath_uniqueness (env : CatalogEnv) (itemObjectId : Option String)
    (prev : OneLakeFileBrowserState) (ws : String) (items : List FabricItem)
    (h1 : resolveWorkspace env itemObjectId = .ok (some ws))
    (h2 : env.getAllItems ws = .ok items)
    (hids : ((items.filter fun it => it.type == "Lakehouse").map FabricItem.id).Nodup)
    (hslash : ∀ lh ∈ items.filter (fun it => it.type == "Lakehouse"), '/' ∉ lh.id.data)
    (hlist : ∀ lh ∈ items.filter (fun it => it.type == "Lakehouse"),
      ((lakehouseListing env ws lh).map PathEntry.name).Nodup ∧
      ∀ p ∈ lakehouseListing env ws lh, jsStartsWith p.name (lh.id ++ "/Files/") = true) :
    ((loadFiles env itemObjectId prev).1.files.map OneLakeFile.fullPath).Nodup := by
  rcases hlk : items.filter (fun it => it.type == "Lakehouse") with _ | ⟨A, rest⟩
  · simp [loadFiles, h1, h2, hlk]
  · have hfiles : (loadFiles env itemObjectId prev).1.files = buildAllFiles env ws (A :: rest) := by
      simp [loadFiles, h1, h2, hlk]
    rw [hfiles, buildAllFiles, List.map_flatMap, List.nodup_flatMap]
    constructor
    · intro lh hlh
      have hmem : lh ∈ items.filter (fun it => it.type == "Lakehouse") := by
        rw [hlk]; exact hlh
      rcases hpm : env.getPathMetadata ws (lh.id ++ "/Files") with e | ps
      · simp [processLakehouse, hpm]
      · have hps : lakehouseListing env ws lh = ps := by rw [lakehouseListing, hpm]
        obtain ⟨hnames, hstarts⟩ := hlist lh hmem
        rw [hps] at hnames hstarts
        simp only [processLakehouse, hpm]
        rw [List.map_map]
        apply List.Nodup.map_on
        · intro x hx y hy hf
          have hx' := List.mem_of_mem_filter hx
          have hy' := List.mem_of_mem_filter hy
          obtain ⟨rx, hrx⟩ := name_seg_form lh x (hstarts x hx')
          obtain ⟨ry, hry⟩ := name_seg_form lh y (hstarts y hy')
          have hnm : x.name = y.name := entry_fullPath_inj ws lh x y _ _ hrx hry hf
          exact List.inj_on_of_nodup_map hnames hx' hy' hnm
        · exact List.Nodup.filter _ (List.Nodup.of_map _ hnames)
    · have hids' : ((A :: rest).map FabricItem.id).Nodup := by rw [← hlk]; exact hids
      have hpw : (A :: rest).Pairwise (fun a b => a.id ≠ b.id) :=
        List.pairwise_map.mp hids'
      refine List.Pairwise.imp_of_mem ?_ hpw
      intro a b ha hb hne
      intro x hxa hxb
      have hamem : a ∈ items.filter (fun it => it.type == "Lakehouse") := by
        rw [hlk]; exact ha
      have hbmem : b ∈ items.filter (fun it => it.type == "Lakehouse") := by
        rw [hlk]; exact hb
      obtain ⟨ta, hta⟩ := mem_lakehouse_fullPath_form env ws a (hlist a hamem).2 x hxa
      obtain ⟨tb, htb⟩ := mem_lakehouse_fullPath_form env ws b (hlist b hbmem).2 x hxb
      rw [hta] at htb
      have hc := List.append_cancel_left htb
      injection hc with _ hc2
      obtain ⟨hab, _⟩ := seg_inj a.id.data b.id.data ta tb
        (hslash a hamem) (hslash b hbmem) hc2
      exact hne (strInjData _ _ hab)

/-- Witness for C7 at the `sampleEnv` build. -/
theorem fullPath_uniqueness_witness :
    ((loadFiles sampleEnv (some "item") initialBrowserState).1.files.map
      OneLakeFile.fullPath).Nodup :=
  fullPath_uniqueness sampleEnv (some "item") initialBrowserState "ws1"
    [⟨"la", "A", "Lakehouse"⟩, ⟨"nb", "N", "Notebook"⟩, ⟨"lb", "B", "Lakehouse"⟩]
    (by decide) (by decide) (by decide) (by decide) (by decide)
